import Mathlib

/-!
# Verification of the nogu request-coalescing broker and its call sites

Shallow embedding of the repository's beatmap-request subsystem:

* The broker core (`app.definition.Operator`: `new_operation`, the throttle
  ledger, the in-flight registry, session channels) is not part of the
  visible sources; only its call sites are.  It is modelled from the spec
  (spec sections 3 and 4.1): state `BrokerState`, admission `submit`,
  completion `complete`.
* `BeatmapRequestOperator.operate` (src/nogu-nekko/app/api/beatmaps.py),
  `Beatmap.request_api` and `Score.submit_raw` (src/app/interaction.py) and
  the `stream_beatmap` route are translated from the Python source.
  Database rows are kept as lists; awaiting/async structure is flattened to
  explicit state passing; a Python exception is an `Except.error`.
-/

namespace Nogu

/-- A Python exception relevant to the embedded code. -/
inductive PyErr
  | keyError
deriving DecidableEq, Repr

/-- Modelled from the spec: `ResultMessage` `{key, status, payload}` (spec §3).
The payload is irrelevant to the claims, so only key and status are kept;
`success = false` is a Failure message. -/
structure ResultMessage where
  identifier : String
  success : Bool
deriving DecidableEq, Repr

/-- Modelled from the spec: broker-owned state (spec §3) — the In-Flight
Registry (key → waiter set, `none` if not in flight), the Throttle Ledger
(key → `lastExecutedAt`), the retained most-recent cached result per key,
one ordered output channel per session, and a counter of how many
executions of `run` have been started. -/
structure BrokerState where
  inFlight : String → Option (List String)
  lastExecutedAt : String → Option Nat
  cached : String → Option ResultMessage
  channels : String → List ResultMessage
  runCount : Nat

/-- Add a session to a waiter set (set semantics: no duplicates). -/
def addWaiter (w : String) (ws : List String) : List String :=
  if w ∈ ws then ws else ws ++ [w]

/-- Outcome of one admission decision (spec §4.1 steps 1–3). -/
inductive SubmitOutcome
  | coalesced
  | skipped
  | started
deriving DecidableEq, Repr

/-- Append a message to one session's output channel. -/
def enqueue (session : String) (msg : ResultMessage) (st : BrokerState) : BrokerState :=
  { st with channels := fun s => if s = session then st.channels s ++ [msg] else st.channels s }

/-- Create the in-flight entry for `key` with waiters `{session}` and start
one execution of `run` (spec §4.1 step 3, admission half). -/
def startExec (session key : String) (st : BrokerState) : BrokerState :=
  { st with
    inFlight := fun k => if k = key then some [session] else st.inFlight k
    runCount := st.runCount + 1 }

/-- Modelled from the spec: the admission algorithm of `submit(session, key)`
(spec §4.1), executed atomically inside the mandated critical section:
1. key in flight → join the waiter set (coalesce);
2. else key throttled (`now - lastExecutedAt < interval`) → skip, enqueueing
   the retained cached result if any;
3. else → create the in-flight entry and start an execution. -/
def submit (interval : Nat) (session key : String) (now : Nat) (st : BrokerState) :
    BrokerState × SubmitOutcome :=
  match st.inFlight key with
  | some ws =>
      ({ st with inFlight := fun k => if k = key then some (addWaiter session ws) else st.inFlight k },
       SubmitOutcome.coalesced)
  | none =>
      match st.lastExecutedAt key with
      | some last =>
          if now - last < interval then
            match st.cached key with
            | some msg => (enqueue session msg st, SubmitOutcome.skipped)
            | none => (st, SubmitOutcome.skipped)
          else (startExec session key st, SubmitOutcome.started)
      | none => (startExec session key st, SubmitOutcome.started)

/-- Fan a message out to every waiter's channel, in waiter order. -/
def publishAll (ws : List String) (msg : ResultMessage) (st : BrokerState) : BrokerState :=
  ws.foldl (fun s w => enqueue w msg s) st

/-- Modelled from the spec: completion of the execution for `key`
(spec §4.1 step 3, completion half): update the ThrottleEntry's
`lastExecutedAt`, push the ResultMessage to every waiter's channel, retain
it as the cached result, then delete the in-flight entry.  Per the failure
semantics (spec §4.1) this happens for success and failure alike. -/
def complete (key : String) (msg : ResultMessage) (now : Nat) (st : BrokerState) : BrokerState :=
  match st.inFlight key with
  | none => st
  | some ws =>
      let st1 := publishAll ws msg st
      { st1 with
        inFlight := fun k => if k = key then none else st1.inFlight k
        lastExecutedAt := fun k => if k = key then some now else st1.lastExecutedAt k
        cached := fun k => if k = key then some msg else st1.cached k }

/-- A sequence of submissions of the same key at the same instant by a list
of sessions. -/
def submitMany (interval : Nat) (key : String) (now : Nat) (sessions : List String)
    (st : BrokerState) : BrokerState :=
  sessions.foldl (fun s sess => (submit interval sess key now s).1) st

/-- Number of messages for `key` in a channel. -/
def countKey (msgs : List ResultMessage) (key : String) : Nat :=
  (msgs.filter (fun m => m.identifier == key)).length

/-- A broker state with nothing in flight, an empty ledger, no cached
results and empty channels. -/
def freshState : BrokerState :=
  { inFlight := fun _ => none
    lastExecutedAt := fun _ => none
    cached := fun _ => none
    channels := fun _ => []
    runCount := 0 }

/-! ## Source side: `Beatmap` rows, `request_api`, `operate` (from src) -/

/-- A `beatmaps` row (src/app/interaction.py, class `Beatmap`), projected to
the two columns the embedded lookups read: the `md5` primary key and the
nullable numeric `id`.  The remaining columns are opaque payload never
inspected by the code under verification. -/
structure Beatmap where
  md5 : String
  id : Option Int
deriving DecidableEq, Repr

/-- One entry of the decoded remote response body, projected to the fields
that become the row identity in `Beatmap._save_response`
(src/app/interaction.py lines 76–116): `file_md5` and `beatmap_id`. -/
structure Entry where
  file_md5 : String
  beatmap_id : Int
deriving DecidableEq, Repr

/-- The row `Beatmap._save_response` constructs from one response entry
(identity columns; the other columns are opaque payload). -/
def entryToBeatmap (e : Entry) : Beatmap :=
  { md5 := e.file_md5, id := some e.beatmap_id }

/-- `Beatmap._save_response` (src/app/interaction.py lines 75–116): persist
one row per response entry into the store, in response order. -/
def save_response (store : List Beatmap) (data : List Entry) : List Beatmap :=
  store ++ data.map entryToBeatmap

/-- `Beatmap.from_id` (src/app/interaction.py lines 145–147): select the
row whose `id` column equals `beatmap_id`. -/
def from_id (store : List Beatmap) (beatmap_id : Int) : Option Beatmap :=
  store.find? (fun b => b.id == some beatmap_id)

/-- `Beatmap.from_md5` (src/app/interaction.py lines 149–151): select the
row keyed by `md5`. -/
def from_md5 (store : List Beatmap) (md5 : String) : Option Beatmap :=
  store.find? (fun b => b.md5 == md5)

/-- The `params` dict built by `request_api`; only the `md5` and `id` keys
are ever read back (`k` is only sent to the remote service). A `none`
field is an absent dict key, so reading it raises `KeyError`. -/
structure Params where
  md5 : Option String
  id : Option Int
deriving DecidableEq, Repr

/-- `Beatmap.request_api` (src/app/interaction.py lines 118–143).
Inputs abstract the ambient world: `md5Match` is the result of
`definition.MD5_PATTERN.match(ident)`, `isNum` of `ident.isnumeric()` (in
which case `identVal` is `int(ident)`); `status` and `rdata` are the remote
response status and decoded body; `store` is the durable beatmap table.
Returns the store after any persistence together with the normal result or
the raised exception:
* body of the `status == 200 and response_data` branch: persist all
  entries, then `if params["id"]:` (KeyError when absent, then truthiness),
  then `if params["md5"]:` likewise, else fall through to `None`;
* otherwise fall off the function: `None`, nothing persisted. -/
def request_api (md5Match isNum : Bool) (ident : String) (identVal : Int)
    (status : Nat) (rdata : List Entry) (store : List Beatmap) :
    List Beatmap × Except PyErr (Option Beatmap) :=
  let params : Params :=
    { md5 := if md5Match then some ident else none
      id := if isNum then some identVal else none }
  if status = 200 ∧ rdata ≠ [] then
    let store1 := save_response store rdata
    match params.id with
    | none => (store1, Except.error PyErr.keyError)
    | some i =>
        if i ≠ 0 then (store1, Except.ok (from_id store1 i))
        else
          match params.md5 with
          | none => (store1, Except.error PyErr.keyError)
          | some m =>
              if m ≠ "" then (store1, Except.ok (from_md5 store1 m))
              else (store1, Except.ok none)
  else (store, Except.ok none)

/-- `ModelResponse` as constructed by `operate`
(src/nogu-nekko/app/api/beatmaps.py lines 24–25): identifier, a
success/failure status, and the optional beatmap payload. -/
structure ModelResponse where
  identifier : String
  success : Bool
  data : Option Beatmap
deriving DecidableEq, Repr

/-- `BeatmapRequestOperator.operate` (src/nogu-nekko/app/api/beatmaps.py
lines 16–25).  `fromIdent` abstracts `Beatmap.from_ident` (its definition
is outside the visible sources): the local durable-store lookup.  State
threaded: the `skip_next_interval` flag (`skip0` on entry) and the beatmap
store.  Follows the source line by line: local lookup; on a hit set
`skip_next_interval := True`; on a miss call `request_api` (whose exception
propagates); if still nothing return a failure ModelResponse, else a
success one carrying the beatmap. -/
def operate (fromIdent : List Beatmap → String → Option Beatmap)
    (md5Match isNum : Bool) (identVal : Int) (status : Nat) (rdata : List Entry)
    (skip0 : Bool) (store : List Beatmap) (args : String) :
    Bool × List Beatmap × Except PyErr ModelResponse :=
  match fromIdent store args with
  | some bm =>
      (true, store, Except.ok { identifier := args, success := true, data := some bm })
  | none =>
      match request_api md5Match isNum args identVal status rdata store with
      | (store1, Except.error e) => (skip0, store1, Except.error e)
      | (store1, Except.ok none) =>
          (skip0, store1, Except.ok { identifier := args, success := false, data := none })
      | (store1, Except.ok (some bm)) =>
          (skip0, store1, Except.ok { identifier := args, success := true, data := some bm })

/-- Modelled from the spec: the broker invokes the operation body and
normalizes its outcome (spec §7 propagation policy): a returned
ModelResponse keeps its status, a raised fault becomes a Failure
ResultMessage for the key. -/
def normalizeOutcome (key : String) (outcome : Except PyErr ModelResponse) : ResultMessage :=
  match outcome with
  | Except.ok r => { identifier := r.identifier, success := r.success }
  | Except.error _ => { identifier := key, success := false }

/-! ## Source side: `Score.submit_raw` and the `stream_beatmap` route -/

/-- A `scores` row (src/app/interaction.py, class `Score`), projected to
the four columns `submit_raw` reads into the condition variables.
`accuracy` is a numeric column; its value is an opaque number to the
condition evaluator, embedded as `Rat`. -/
structure Score where
  accuracy : Rat
  highest_combo : Int
  mods : Int
  score : Int
deriving DecidableEq, Repr

/-- The variable mapping `submit_raw` builds
(src/app/interaction.py lines 192–197). -/
structure ScoreVariables where
  acc : Rat
  max_combo : Int
  mods : Int
  score : Int
deriving DecidableEq, Repr

/-- `Score.submit_raw` (src/app/interaction.py lines 191–199).  `check`
abstracts `AstChecker(condition).check` — the condition evaluator, an
external collaborator treated as an opaque pure predicate (spec §6).
Builds the variable mapping from the score's columns; if the evaluator
accepts, persists the score and returns it; otherwise falls off the
function (`None`), leaving the store unchanged. -/
def submit_raw (check : String → ScoreVariables → Bool) (self : Score)
    (condition : String) (store : List Score) : List Score × Option Score :=
  let vars : ScoreVariables :=
    { acc := self.accuracy
      max_combo := self.highest_combo
      mods := self.mods
      score := self.score }
  if check condition vars then (store ++ [self], some self)
  else (store, none)

/-- One iteration of the `for ident in idents` loop of `stream_beatmap`:
submit this ident for the user and record the admission outcome. -/
def streamStep (interval : Nat) (userId : String) (now : Nat)
    (acc : BrokerState × List SubmitOutcome) (ident : String) :
    BrokerState × List SubmitOutcome :=
  let r := submit interval userId ident now acc.1
  (r.1, acc.2 ++ [r.2])

/-- `stream_beatmap` (src/nogu-nekko/app/api/beatmaps.py lines 41–46):
for each ident in the request list, in order, call
`beatmap_request_operator.new_operation(str(user.id), ident)` — one
`submit` per key — then return the EventSourceResponse attached to the
user's event stream over the resulting broker state.  Returns the final
broker state together with the admission outcomes in call order. -/
def stream_beatmap (interval : Nat) (userId : String) (idents : List String)
    (now : Nat) (st : BrokerState) : BrokerState × List SubmitOutcome :=
  idents.foldl (streamStep interval userId now) (st, [])

/-! ## Helper lemmas about the broker model -/

theorem mem_addWaiter {x w : String} {ws : List String} :
    x ∈ addWaiter w ws ↔ x ∈ ws ∨ x = w := by
  unfold addWaiter
  by_cases hw : w ∈ ws
  · simp only [if_pos hw]
    exact ⟨Or.inl, fun h => h.elim id (fun hx => hx ▸ hw)⟩
  · simp [if_neg hw]

theorem addWaiter_nodup {ws : List String} (h : ws.Nodup) (w : String) :
    (addWaiter w ws).Nodup := by
  unfold addWaiter
  by_cases hw : w ∈ ws
  · simpa [if_pos hw]
  · simp only [if_neg hw]
    simpa [List.nodup_append, h] using hw

theorem mem_foldl_addWaiter {x : String} :
    ∀ (sessions ws : List String),
      x ∈ sessions.foldl (fun acc s => addWaiter s acc) ws ↔ x ∈ ws ∨ x ∈ sessions := by
  intro sessions
  induction sessions with
  | nil => intro ws; simp
  | cons s rest ih =>
      intro ws
      rw [List.foldl_cons, ih (addWaiter s ws)]
      constructor
      · rintro (hm | hm)
        · rcases mem_addWaiter.mp hm with h | h
          · exact Or.inl h
          · exact Or.inr (by simp [h])
        · exact Or.inr (by simp [hm])
      · rintro (hm | hm)
        · exact Or.inl (mem_addWaiter.mpr (Or.inl hm))
        · rcases List.mem_cons.mp hm with h | h
          · exact Or.inl (mem_addWaiter.mpr (Or.inr h))
          · exact Or.inr h

theorem foldl_addWaiter_nodup :
    ∀ (sessions ws : List String), ws.Nodup →
      (sessions.foldl (fun acc s => addWaiter s acc) ws).Nodup := by
  intro sessions
  induction sessions with
  | nil => intro ws h; simpa
  | cons s rest ih =>
      intro ws h
      rw [List.foldl_cons]
      exact ih (addWaiter s ws) (addWaiter_nodup h s)

theorem enqueue_channels (w : String) (msg : ResultMessage) (st : BrokerState) (s : String) :
    (enqueue w msg st).channels s
      = if s = w then st.channels s ++ [msg] else st.channels s := rfl

theorem submit_coalesce {st : BrokerState} {key : String} {ws : List String}
    (h : st.inFlight key = some ws) (interval now : Nat) (sess : String) :
    (submit interval sess key now st).1.inFlight key = some (addWaiter sess ws) ∧
    (submit interval sess key now st).1.runCount = st.runCount ∧
    (submit interval sess key now st).1.channels = st.channels ∧
    (submit interval sess key now st).2 = SubmitOutcome.coalesced := by
  simp [submit, h]

theorem submit_start {st : BrokerState} {key : String}
    (hflight : st.inFlight key = none) (hledger : st.lastExecutedAt key = none)
    (interval now : Nat) (sess : String) :
    submit interval sess key now st = (startExec sess key st, SubmitOutcome.started) := by
  simp [submit, hflight, hledger]

theorem submit_skip {st : BrokerState} {key : String} {last interval now : Nat}
    (hflight : st.inFlight key = none) (hentry : st.lastExecutedAt key = some last)
    (hcool : now - last < interval) (sess : String) :
    (submit interval sess key now st).2 = SubmitOutcome.skipped ∧
    (submit interval sess key now st).1.runCount = st.runCount ∧
    (submit interval sess key now st).1.inFlight = st.inFlight ∧
    ((submit interval sess key now st).1.channels sess = st.channels sess ∨
      ∃ m, st.cached key = some m ∧
        (submit interval sess key now st).1.channels sess = st.channels sess ++ [m]) := by
  cases hcache : st.cached key with
  | none => simp [submit, hflight, hentry, hcool, hcache]
  | some m =>
      refine ⟨?_, ?_, ?_, Or.inr ⟨m, rfl, ?_⟩⟩ <;>
        simp [submit, hflight, hentry, hcool, hcache, enqueue]

theorem submit_lastExecutedAt (interval now : Nat) (sess key : String) (st : BrokerState) :
    (submit interval sess key now st).1.lastExecutedAt = st.lastExecutedAt := by
  unfold submit
  cases hf : st.inFlight key with
  | some ws => rfl
  | none =>
      cases hl : st.lastExecutedAt key with
      | some last =>
          by_cases hc : now - last < interval
          · cases hcc : st.cached key <;> simp [hc, hcc, enqueue]
          · simp [hc, startExec]
      | none => simp [startExec]

theorem submitMany_coalesce (interval now : Nat) (key : String) :
    ∀ (sessions : List String) (st : BrokerState) (ws : List String),
      st.inFlight key = some ws →
      (submitMany interval key now sessions st).inFlight key
          = some (sessions.foldl (fun acc s => addWaiter s acc) ws) ∧
      (submitMany interval key now sessions st).runCount = st.runCount ∧
      (submitMany interval key now sessions st).channels = st.channels := by
  intro sessions
  induction sessions with
  | nil => intro st ws h; simpa [submitMany]
  | cons s rest ih =>
      intro st ws h
      obtain ⟨h1, h2, h3, _⟩ := submit_coalesce h interval now s
      obtain ⟨g1, g2, g3⟩ := ih (submit interval s key now st).1 (addWaiter s ws) h1
      refine ⟨?_, ?_, ?_⟩
      · simpa [submitMany, List.foldl_cons] using g1
      · simp only [submitMany, List.foldl_cons] at g2 ⊢
        rw [g2, h2]
      · simp only [submitMany, List.foldl_cons] at g3 ⊢
        rw [g3, h3]

theorem publishAll_channels (msg : ResultMessage) :
    ∀ (ws : List String) (st : BrokerState) (s : String),
      (publishAll ws msg st).channels s
        = st.channels s ++ List.replicate (ws.count s) msg := by
  intro ws
  induction ws with
  | nil => intro st s; simp [publishAll]
  | cons w rest ih =>
      intro st s
      simp only [publishAll, List.foldl_cons] at ih ⊢
      rw [ih (enqueue w msg st) s, enqueue_channels]
      by_cases hs : s = w
      · subst hs
        rw [if_pos rfl, List.append_assoc]
        congr 1
        rw [List.count_cons_self, List.replicate_succ]
        rfl
      · rw [if_neg hs]
        congr 2
        rw [List.count_cons_of_ne hs]

theorem publishAll_frame (msg : ResultMessage) :
    ∀ (ws : List String) (st : BrokerState),
      (publishAll ws msg st).inFlight = st.inFlight ∧
      (publishAll ws msg st).lastExecutedAt = st.lastExecutedAt ∧
      (publishAll ws msg st).cached = st.cached ∧
      (publishAll ws msg st).runCount = st.runCount := by
  intro ws
  induction ws with
  | nil => intro st; exact ⟨rfl, rfl, rfl, rfl⟩
  | cons w rest ih =>
      intro st
      simp only [publishAll, List.foldl_cons] at ih ⊢
      exact ih (enqueue w msg st)

theorem complete_spec {st : BrokerState} {key : String} {ws : List String}
    (h : st.inFlight key = some ws) (msg : ResultMessage) (now : Nat) :
    (complete key msg now st).inFlight key = none ∧
    (complete key msg now st).lastExecutedAt key = some now ∧
    (complete key msg now st).cached key = some msg ∧
    (complete key msg now st).runCount = st.runCount ∧
    ∀ s, (complete key msg now st).channels s
        = st.channels s ++ List.replicate (ws.count s) msg := by
  obtain ⟨f1, f2, f3, f4⟩ := publishAll_frame msg ws st
  refine ⟨?_, ?_, ?_, ?_, ?_⟩ <;>
    simp [complete, h, f4, publishAll_channels]

theorem countKey_append_replicate (msgs : List ResultMessage) (key : String)
    (n : Nat) (msg : ResultMessage) (h : msg.identifier = key) :
    countKey (msgs ++ List.replicate n msg) key = countKey msgs key + n := by
  unfold countKey
  rw [List.filter_append, List.length_append]
  congr 1
  induction n with
  | zero => simp
  | succ k ih => simp [List.replicate_succ, h, ih]

theorem startExec_fields (sess key : String) (st : BrokerState) :
    (startExec sess key st).inFlight key = some [sess] ∧
    (startExec sess key st).runCount = st.runCount + 1 ∧
    (startExec sess key st).channels = st.channels ∧
    (startExec sess key st).lastExecutedAt = st.lastExecutedAt ∧
    ∀ k, k ≠ key → (startExec sess key st).inFlight k = st.inFlight k := by
  refine ⟨by simp [startExec], rfl, rfl, rfl, ?_⟩
  intro k hk
  simp [startExec, hk]

theorem streamStep_foldl_fresh (interval now : Nat) (userId : String) :
    ∀ (idents : List String) (st : BrokerState) (acc : List SubmitOutcome),
      (∀ k ∈ idents, st.inFlight k = none ∧ st.lastExecutedAt k = none) →
      idents.Nodup →
      (idents.foldl (streamStep interval userId now) (st, acc)).2
          = acc ++ List.replicate idents.length SubmitOutcome.started ∧
      (idents.foldl (streamStep interval userId now) (st, acc)).1.runCount
          = st.runCount + idents.length ∧
      (∀ k ∈ idents,
        (idents.foldl (streamStep interval userId now) (st, acc)).1.inFlight k
          = some [userId]) ∧
      (∀ k, k ∉ idents →
        (idents.foldl (streamStep interval userId now) (st, acc)).1.inFlight k
            = st.inFlight k ∧
        (idents.foldl (streamStep interval userId now) (st, acc)).1.lastExecutedAt k
            = st.lastExecutedAt k) := by
  intro idents
  induction idents with
  | nil =>
      intro st acc _ _
      exact ⟨by simp, by simp, by simp, fun k _ => ⟨rfl, rfl⟩⟩
  | cons i rest ih =>
      intro st acc hfresh hnodup
      obtain ⟨hfi, hli⟩ := hfresh i (by simp)
      have hstep : streamStep interval userId now (st, acc) i
          = (startExec userId i st, acc ++ [SubmitOutcome.started]) := by
        simp [streamStep, submit_start hfi hli]
      have hinotin : i ∉ rest := (List.nodup_cons.mp hnodup).1
      obtain ⟨x1, x2, x3, x4, x5⟩ := startExec_fields userId i st
      have hfresh1 : ∀ k ∈ rest,
          (startExec userId i st).inFlight k = none ∧
          (startExec userId i st).lastExecutedAt k = none := by
        intro k hk
        have hkne : k ≠ i := fun h => hinotin (h ▸ hk)
        obtain ⟨hf, hl⟩ := hfresh k (by simp [hk])
        exact ⟨(x5 k hkne).trans hf, by rw [x4]; exact hl⟩
      obtain ⟨g1, g2, g3, g4⟩ :=
        ih (startExec userId i st) (acc ++ [SubmitOutcome.started]) hfresh1
          (List.nodup_cons.mp hnodup).2
      rw [List.foldl_cons, hstep]
      refine ⟨?_, ?_, ?_, ?_⟩
      · rw [g1, List.append_assoc, List.length_cons, List.replicate_succ]
        rfl
      · rw [g2, x2, List.length_cons]
        omega
      · intro k hk
        rcases List.mem_cons.mp hk with h | h
        · subst h
          rw [(g4 k hinotin).1, x1]
        · exact g3 k h
      · intro k hk
        have hknotr : k ∉ rest := fun h => hk (by simp [h])
        have hkne : k ≠ i := fun h => hk (by simp [h])
        obtain ⟨f1, f2⟩ := g4 k hknotr
        exact ⟨f1.trans (x5 k hkne), f2.trans (congrFun x4 k)⟩

/-! ## Claim theorems -/

/-- C1: for concurrent submissions of the same key while that key is
in-flight — a first admitted submission followed by any list of further
submissions of the same key before completion — exactly one execution of
`run` starts (the run counter rises by exactly one across the whole
episode), the in-flight entry is destroyed at completion, and every
submitting session receives exactly one ResultMessage for that key: later
submitters join the existing waiter set instead of starting a new
execution. -/
theorem coalesced_submissions_single_execution
    (interval now later : Nat) (key s0 : String) (rest : List String)
    (msg : ResultMessage) (st0 : BrokerState)
    (hflight : st0.inFlight key = none)
    (hledger : st0.lastExecutedAt key = none)
    (hmsg : msg.identifier = key) :
    (complete key msg later
        (submitMany interval key now rest (submit interval s0 key now st0).1)).runCount
      = st0.runCount + 1 ∧
    (complete key msg later
        (submitMany interval key now rest (submit interval s0 key now st0).1)).inFlight key
      = none ∧
    ∀ sess, sess ∈ s0 :: rest →
      countKey ((complete key msg later
          (submitMany interval key now rest
            (submit interval s0 key now st0).1)).channels sess) key
        = countKey (st0.channels sess) key + 1 := by
  have hsub : (submit interval s0 key now st0).1 = startExec s0 key st0 := by
    rw [submit_start hflight hledger]
  have h1flight : (submit interval s0 key now st0).1.inFlight key = some [s0] := by
    rw [hsub]; simp [startExec]
  have h1run : (submit interval s0 key now st0).1.runCount = st0.runCount + 1 := by
    rw [hsub]; rfl
  have h1chan : (submit interval s0 key now st0).1.channels = st0.channels := by
    rw [hsub]; rfl
  obtain ⟨g1, g2, g3⟩ :=
    submitMany_coalesce interval now key rest (submit interval s0 key now st0).1 [s0] h1flight
  obtain ⟨c1, _, _, c4, c5⟩ := complete_spec g1 msg later
  refine ⟨?_, c1, ?_⟩
  · rw [c4, g2, h1run]
  · intro sess hsess
    have hmem : sess ∈ rest.foldl (fun acc s => addWaiter s acc) [s0] := by
      rw [mem_foldl_addWaiter]
      rcases List.mem_cons.mp hsess with h | h
      · exact Or.inl (by simp [h])
      · exact Or.inr h
    have hnd : (rest.foldl (fun acc s => addWaiter s acc) [s0]).Nodup :=
      foldl_addWaiter_nodup rest [s0] (by simp)
    rw [c5 sess, List.count_eq_one_of_mem hnd hmem,
      countKey_append_replicate _ _ _ _ hmsg, g3, h1chan]

/-- Witness for C1: two sessions "b" and "c" coalesce onto the execution
admitted for session "a"; one execution runs and every session receives
exactly one result for the key. -/
theorem coalesced_submissions_single_execution_witness :
    (complete "k" { identifier := "k", success := true } 5
        (submitMany 60 "k" 0 ["b", "c"] (submit 60 "a" "k" 0 freshState).1)).runCount
      = freshState.runCount + 1 ∧
    (complete "k" { identifier := "k", success := true } 5
        (submitMany 60 "k" 0 ["b", "c"] (submit 60 "a" "k" 0 freshState).1)).inFlight "k"
      = none ∧
    ∀ sess, sess ∈ "a" :: ["b", "c"] →
      countKey ((complete "k" { identifier := "k", success := true } 5
          (submitMany 60 "k" 0 ["b", "c"]
            (submit 60 "a" "k" 0 freshState).1)).channels sess) "k"
        = countKey (freshState.channels sess) "k" + 1 :=
  coalesced_submissions_single_execution 60 0 5 "k" "a" ["b", "c"]
    { identifier := "k", success := true } freshState rfl rfl rfl

/-- C2: a submission of a key whose ThrottleEntry satisfies
`now - lastExecutedAt < interval` is treated as a skip: no new execution of
`run` starts, the in-flight registry is untouched, and at most the retained
cached ResultMessage is enqueued to the submitting session. -/
theorem cooldown_submission_skips
    (interval now last : Nat) (session key : String) (st : BrokerState)
    (hflight : st.inFlight key = none)
    (hentry : st.lastExecutedAt key = some last)
    (hcool : now - last < interval) :
    (submit interval session key now st).2 = SubmitOutcome.skipped ∧
    (submit interval session key now st).1.runCount = st.runCount ∧
    (submit interval session key now st).1.inFlight = st.inFlight ∧
    ((submit interval session key now st).1.channels session = st.channels session ∨
      ∃ m, st.cached key = some m ∧
        (submit interval session key now st).1.channels session
          = st.channels session ++ [m]) :=
  submit_skip hflight hentry hcool session

/-- Witness for C2: a key last executed at time 0 is submitted again at
time 10 with a 60-unit interval; the submission is skipped. -/
theorem cooldown_submission_skips_witness :
    (submit 60 "s" "k" 10
        { freshState with lastExecutedAt := fun _ => some 0 }).2
      = SubmitOutcome.skipped ∧
    (submit 60 "s" "k" 10
        { freshState with lastExecutedAt := fun _ => some 0 }).1.runCount
      = ({ freshState with lastExecutedAt := fun _ => some 0 } : BrokerState).runCount ∧
    (submit 60 "s" "k" 10
        { freshState with lastExecutedAt := fun _ => some 0 }).1.inFlight
      = ({ freshState with lastExecutedAt := fun _ => some 0 } : BrokerState).inFlight ∧
    ((submit 60 "s" "k" 10
        { freshState with lastExecutedAt := fun _ => some 0 }).1.channels "s"
      = ({ freshState with lastExecutedAt := fun _ => some 0 } : BrokerState).channels "s" ∨
      ∃ m, ({ freshState with lastExecutedAt := fun _ => some 0 } : BrokerState).cached "k"
            = some m ∧
        (submit 60 "s" "k" 10
            { freshState with lastExecutedAt := fun _ => some 0 }).1.channels "s"
          = ({ freshState with lastExecutedAt := fun _ => some 0 } : BrokerState).channels "s"
              ++ [m]) :=
  cooldown_submission_skips 60 10 0 "s" "k"
    { freshState with lastExecutedAt := fun _ => some 0 } rfl rfl (by decide)

/-- C3: the Throttle Ledger's `lastExecutedAt` is updated exactly on
completed executions: no admission decision (skip, coalesce or start) ever
changes the ledger, a completion — including one delivering a Failure
message — sets the key's entry to the completion time, and a repeat
submission of the key within `interval` of a failed completion is skipped
without a new execution. -/
theorem ledger_updated_exactly_on_completion
    (interval now t n2 : Nat) (sess sess2 key : String)
    (st st2 : BrokerState) (msg : ResultMessage) (ws : List String)
    (hws : st2.inFlight key = some ws)
    (_hfail : msg.success = false)
    (hcool : n2 - t < interval) :
    (submit interval sess key now st).1.lastExecutedAt = st.lastExecutedAt ∧
    (complete key msg t st2).lastExecutedAt key = some t ∧
    (submit interval sess2 key n2 (complete key msg t st2)).2 = SubmitOutcome.skipped ∧
    (submit interval sess2 key n2 (complete key msg t st2)).1.runCount
      = (complete key msg t st2).runCount := by
  obtain ⟨c1, c2, _, _, _⟩ := complete_spec hws msg t
  obtain ⟨s1, s2, _, _⟩ := submit_skip c1 c2 hcool sess2
  exact ⟨submit_lastExecutedAt interval now sess key st, c2, s1, s2⟩

/-- Witness for C3: a failing execution for key "k" completes at time 0; a
repeat submission at time 10 (interval 60) is skipped. -/
theorem ledger_updated_exactly_on_completion_witness :
    (submit 60 "a" "k" 0 freshState).1.lastExecutedAt = freshState.lastExecutedAt ∧
    (complete "k" { identifier := "k", success := false } 0
        { freshState with inFlight := fun _ => some ["a"] }).lastExecutedAt "k" = some 0 ∧
    (submit 60 "b" "k" 10
        (complete "k" { identifier := "k", success := false } 0
          { freshState with inFlight := fun _ => some ["a"] })).2
      = SubmitOutcome.skipped ∧
    (submit 60 "b" "k" 10
        (complete "k" { identifier := "k", success := false } 0
          { freshState with inFlight := fun _ => some ["a"] })).1.runCount
      = (complete "k" { identifier := "k", success := false } 0
          { freshState with inFlight := fun _ => some ["a"] }).runCount :=
  ledger_updated_exactly_on_completion 60 0 0 10 "a" "b" "k" freshState
    { freshState with inFlight := fun _ => some ["a"] }
    { identifier := "k", success := false } ["a"] rfl rfl (by decide)

/-- C4: a failing operation body never surfaces as a thrown fault to the
submitter: a raised fault is normalized by the broker into a Failure
ResultMessage; an empty lookup makes `operate` return a failure
ModelResponse rather than raise; and the resulting message is delivered
through the same session channel append as a success (for any message,
whatever its status, completion appends it to each waiter's channel). -/
theorem failure_normalized_not_thrown
    (fromIdent : List Beatmap → String → Option Beatmap)
    (md5Match isNum : Bool) (identVal : Int) (status : Nat) (rdata : List Entry)
    (skip0 : Bool) (store store1 : List Beatmap) (args key : String)
    (e : PyErr) (t : Nat) (st : BrokerState) (ws : List String) (sess : String)
    (hws : st.inFlight key = some ws) (hnodup : ws.Nodup) (hsess : sess ∈ ws)
    (hlocal : fromIdent store args = none)
    (hremote : request_api md5Match isNum args identVal status rdata store
        = (store1, Except.ok none)) :
    (normalizeOutcome key (Except.error e)).success = false ∧
    operate fromIdent md5Match isNum identVal status rdata skip0 store args
      = (skip0, store1,
          Except.ok { identifier := args, success := false, data := none }) ∧
    ∀ msg : ResultMessage,
      (complete key msg t st).channels sess = st.channels sess ++ [msg] := by
  refine ⟨rfl, ?_, ?_⟩
  · simp [operate, hlocal, hremote]
  · intro msg
    obtain ⟨_, _, _, _, c5⟩ := complete_spec hws msg t
    rw [c5 sess, List.count_eq_one_of_mem hnodup hsess]
    rfl

/-- Witness for C4: the local store and the remote lookup both find
nothing; the session "a" waiting on key "k" receives the message through
its channel and `operate` returns a failure response without raising. -/
theorem failure_normalized_not_thrown_witness :
    (normalizeOutcome "k" (Except.error PyErr.keyError)).success = false ∧
    operate (fun _ _ => none) false false 0 200 [] false [] "x"
      = (false, [], Except.ok { identifier := "x", success := false, data := none }) ∧
    ∀ msg : ResultMessage,
      (complete "k" msg 0
          { freshState with inFlight := fun _ => some ["a"] }).channels "a"
        = ({ freshState with inFlight := fun _ => some ["a"] } : BrokerState).channels "a"
            ++ [msg] :=
  failure_normalized_not_thrown (fun _ _ => none) false false 0 200 [] false [] []
    "x" "k" PyErr.keyError 0 { freshState with inFlight := fun _ => some ["a"] }
    ["a"] "a" rfl (by decide) (by decide) rfl rfl

/-- C5: the operation body first checks the local durable store and
returns the cached row on a hit; on a miss it calls the remote provider —
whose successful response is persisted into the store (`save_response`) —
and returns a Success ModelResponse carrying the found beatmap; when both
lookups find nothing it returns a Failure ModelResponse for the key. -/
theorem operation_body_lookup_chain
    (fromIdent : List Beatmap → String → Option Beatmap)
    (md5Match isNum : Bool) (identVal : Int) (status : Nat) (rdata : List Entry)
    (skip0 : Bool) (store store1 : List Beatmap) (args : String) (bm : Beatmap) :
    (fromIdent store args = some bm →
      operate fromIdent md5Match isNum identVal status rdata skip0 store args
        = (true, store,
            Except.ok { identifier := args, success := true, data := some bm })) ∧
    (fromIdent store args = none →
      request_api md5Match isNum args identVal status rdata store
          = (store1, Except.ok (some bm)) →
      operate fromIdent md5Match isNum identVal status rdata skip0 store args
        = (skip0, store1,
            Except.ok { identifier := args, success := true, data := some bm })) ∧
    (status = 200 → rdata ≠ [] →
      (request_api md5Match isNum args identVal status rdata store).1
        = save_response store rdata) ∧
    (fromIdent store args = none →
      request_api md5Match isNum args identVal status rdata store
          = (store1, Except.ok none) →
      operate fromIdent md5Match isNum identVal status rdata skip0 store args
        = (skip0, store1,
            Except.ok { identifier := args, success := false, data := none })) := by
  refine ⟨?_, ?_, ?_, ?_⟩
  · intro h
    simp [operate, h]
  · intro h hr
    simp [operate, h, hr]
  · intro h200 hne
    simp only [request_api]
    rw [if_pos ⟨h200, hne⟩]
    split
    · rfl
    · split
      · rfl
      · split
        · rfl
        · split <;> rfl
  · intro h hr
    simp [operate, h, hr]

/-- Witness for C5: ident "7" misses the local store; the remote response
persists one row, which the id lookup then returns as a success. -/
theorem operation_body_lookup_chain_witness :
    operate (fun _ _ => none) false true 7 200 [{ file_md5 := "m", beatmap_id := 7 }]
        false [] "7"
      = (false, [{ md5 := "m", id := some 7 }],
          Except.ok { identifier := "7", success := true,
                      data := some { md5 := "m", id := some 7 } }) :=
  (operation_body_lookup_chain (fun _ _ => none) false true 7 200
      [{ file_md5 := "m", beatmap_id := 7 }] false []
      [{ md5 := "m", id := some 7 }] "7" { md5 := "m", id := some 7 }).2.1 rfl rfl

/-- C6: `operate` sets the `skip_next_interval` flag to `true` exactly on
a local-store hit, and leaves the flag at its incoming value on a local
miss — whether the remote fetch succeeds, finds nothing, or raises. -/
theorem skip_flag_set_iff_local_hit
    (fromIdent : List Beatmap → String → Option Beatmap)
    (md5Match isNum : Bool) (identVal : Int) (status : Nat) (rdata : List Entry)
    (skip0 : Bool) (store : List Beatmap) (args : String) (bm : Beatmap) :
    (fromIdent store args = some bm →
      (operate fromIdent md5Match isNum identVal status rdata skip0 store args).1
        = true) ∧
    (fromIdent store args = none →
      (operate fromIdent md5Match isNum identVal status rdata skip0 store args).1
        = skip0) := by
  constructor
  · intro h
    simp [operate, h]
  · intro h
    rcases hr : request_api md5Match isNum args identVal status rdata store with ⟨s1, r⟩
    cases r with
    | error e => simp [operate, h, hr]
    | ok ob => cases ob <;> simp [operate, h, hr]

/-- Witness for C6: a local miss with a failed remote lookup leaves the
flag at its incoming value `false`. -/
theorem skip_flag_set_iff_local_hit_witness :
    (operate (fun _ _ => none) false false 0 404 [] false [] "x").1 = false :=
  (skip_flag_set_iff_local_hit (fun _ _ => none) false false 0 404 [] false []
      "x" { md5 := "m", id := none }).2 rfl

/-- C7: a submission request carrying a session identity and a list of
operation keys triggers exactly one `submit` (`new_operation`) per key in
the list, in list order, before the session's event stream is attached:
over a fresh broker every listed key is admitted exactly once (the
admission-outcome trace is one `started` per list position), the run
counter rises by exactly the list length, and each key ends in flight with
the submitting session as its sole waiter. -/
theorem one_submission_per_key
    (interval now : Nat) (userId : String) (idents : List String) (st : BrokerState)
    (hfresh : ∀ k ∈ idents, st.inFlight k = none ∧ st.lastExecutedAt k = none)
    (hnodup : idents.Nodup) :
    (stream_beatmap interval userId idents now st).2
        = List.replicate idents.length SubmitOutcome.started ∧
    (stream_beatmap interval userId idents now st).1.runCount
        = st.runCount + idents.length ∧
    ∀ k ∈ idents,
      (stream_beatmap interval userId idents now st).1.inFlight k = some [userId] := by
  simp only [stream_beatmap]
  obtain ⟨g1, g2, g3, _⟩ :=
    streamStep_foldl_fresh interval now userId idents st [] hfresh hnodup
  exact ⟨by simpa using g1, g2, g3⟩

/-- Witness for C7: user "u" streams idents "a" and "b" against a fresh
broker; both are admitted once each, in order. -/
theorem one_submission_per_key_witness :
    (stream_beatmap 60 "u" ["a", "b"] 0 freshState).2
        = List.replicate ["a", "b"].length SubmitOutcome.started ∧
    (stream_beatmap 60 "u" ["a", "b"] 0 freshState).1.runCount
        = freshState.runCount + ["a", "b"].length ∧
    ∀ k ∈ ["a", "b"],
      (stream_beatmap 60 "u" ["a", "b"] 0 freshState).1.inFlight k = some ["u"] :=
  one_submission_per_key 60 0 "u" ["a", "b"] freshState
    (fun _ _ => ⟨rfl, rfl⟩) (by decide)

/-- C8: `submit_raw` persists the score and returns it exactly when the
condition evaluator accepts the variable mapping
`{acc := accuracy, max_combo := highest_combo, mods, score}` built from the
score's columns; when the evaluator rejects, it returns `none` and the
score store is unchanged. -/
theorem submit_raw_gated_by_condition
    (check : String → ScoreVariables → Bool) (sc : Score) (condition : String)
    (store : List Score) :
    (check condition
        { acc := sc.accuracy, max_combo := sc.highest_combo,
          mods := sc.mods, score := sc.score } = true →
      submit_raw check sc condition store = (store ++ [sc], some sc)) ∧
    (check condition
        { acc := sc.accuracy, max_combo := sc.highest_combo,
          mods := sc.mods, score := sc.score } = false →
      submit_raw check sc condition store = (store, none)) := by
  constructor <;> intro h <;> simp [submit_raw, h]

/-- Witness for C8: an evaluator accepting scores of at least 100 accepts
a score of 150, which is persisted and returned. -/
theorem submit_raw_gated_by_condition_witness :
    submit_raw (fun _ v => decide (100 ≤ v.score))
        { accuracy := 1, highest_combo := 2, mods := 0, score := 150 } "c" []
      = ([{ accuracy := 1, highest_combo := 2, mods := 0, score := 150 }],
          some { accuracy := 1, highest_combo := 2, mods := 0, score := 150 }) :=
  (submit_raw_gated_by_condition (fun _ v => decide (100 ≤ v.score))
      { accuracy := 1, highest_combo := 2, mods := 0, score := 150 } "c" []).1
    (by decide)

/-- C9: for an ident matching the MD5 pattern but not numeric, a remote
response with status 200 and a non-empty body makes `request_api` raise a
KeyError when evaluating `params["id"]` — the `id` key was never set —
after persisting the response, so the md5-lookup return path at the end of
the function is never reached for such idents. -/
theorem md5_ident_keyerror
    (ident : String) (identVal : Int) (rdata : List Entry) (store : List Beatmap)
    (hne : rdata ≠ []) :
    request_api true false ident identVal 200 rdata store
      = (save_response store rdata, Except.error PyErr.keyError) := by
  simp [request_api, hne]

/-- Witness for C9: an md5-shaped, non-numeric ident with a one-entry 200
response raises KeyError. -/
theorem md5_ident_keyerror_witness :
    request_api true false "d41d8cd98f00b204e9800998ecf8427e" 0 200
        [{ file_md5 := "m", beatmap_id := 1 }] []
      = (save_response [] [{ file_md5 := "m", beatmap_id := 1 }],
          Except.error PyErr.keyError) :=
  md5_ident_keyerror "d41d8cd98f00b204e9800998ecf8427e" 0
    [{ file_md5 := "m", beatmap_id := 1 }] [] (by decide)

/-- C10: whenever the remote response status is not 200 or the decoded
body is empty, `request_api` returns `None` and persists nothing — the
beatmap store is unchanged. -/
theorem failed_remote_returns_none_no_persist
    (md5Match isNum : Bool) (ident : String) (identVal : Int)
    (status : Nat) (rdata : List Entry) (store : List Beatmap)
    (h : status ≠ 200 ∨ rdata = []) :
    request_api md5Match isNum ident identVal status rdata store
      = (store, Except.ok none) := by
  have hng : ¬(status = 200 ∧ rdata ≠ []) := by
    rcases h with h | h
    · exact fun hc => h hc.1
    · exact fun hc => hc.2 h
  simp [request_api, hng]

/-- Witness for C10: a 404 response leaves the store untouched and yields
`None`. -/
theorem failed_remote_returns_none_no_persist_witness :
    request_api true true "1" 1 404 [{ file_md5 := "m", beatmap_id := 1 }]
        [{ md5 := "z", id := none }]
      = ([{ md5 := "z", id := none }], Except.ok none) :=
  failed_remote_returns_none_no_persist true true "1" 1 404
    [{ file_md5 := "m", beatmap_id := 1 }] [{ md5 := "z", id := none }]
    (Or.inl (by decide))

end Nogu
